import Mathlib

/-!
Verification development for the `teaching-tracing` pipeline
(`src/obs.rs`, `src/stats.rs`, `src/monitor.rs`, `src/metrics.rs`,
`src/lib.rs`).

The Rust code is shallowly embedded: pure computations become Lean
functions, the actor loops become explicit recursion over the finite list
of messages they would receive, f64 values are modelled as rationals
together with explicit IEEE special values (`F64`), u64 arithmetic wraps
modulo 2 ^ 64, and side effects (metric updates, tracing actions) are
reified as lists of explicit operation values in the order the code
performs them.
-/

/-- `CpuStats` from `src/obs.rs` lines 7-18: one named sample.
`usage: f32` is modelled as a rational, `frequency: u64` (MHz) as a
natural number. -/
structure CpuStats where
  name : String
  usage : ℚ
  frequency : ℕ
  deriving DecidableEq

/-- Model of an f64 value as produced by the arithmetic in
`SysStats::run_stats`: either a finite value (exact, as a rational) or one
of the IEEE special values that division can produce.  The sums in
`run_stats` are modelled exactly; only division introduces special
values. -/
inductive F64 where
  | num (q : ℚ)
  | nan
  | posInf
  | negInf
  deriving DecidableEq

/-- IEEE f64 division for a finite numerator and denominator, as performed
by `total_usage / count` in `src/stats.rs` lines 46-47: dividing by zero
yields NaN when the numerator is also zero, and a signed infinity
otherwise. -/
def fdiv (x d : ℚ) : F64 :=
  if d = 0 then
    if x = 0 then F64.nan
    else if 0 < x then F64.posInf
    else F64.negInf
  else F64.num (x / d)

/-- The structured tracing event emitted by the `info!` call in
`src/stats.rs` lines 62-68: one field per named argument, plus the
message text. -/
structure StatsEvent where
  count : ℕ
  cpus : F64
  average_usage : F64
  average_freq_mhz : F64
  message : String
  deriving DecidableEq

/-- `SysStats::run_stats` from `src/stats.rs` lines 38-69.  The window
`previous_obs` (a `VecDeque<Vec<CpuStats>>`, front of the deque = head of
the list) is flattened; `count` is the flattened length as f64;
`total_usage` and `total_freq` are sums over the flattened readings; the
emitted event carries the deque length, readings-per-batch, and the two
averages.  There is no emptiness guard in the source. -/
def run_stats (previous_obs : List (List CpuStats)) : StatsEvent :=
  let iter := previous_obs.flatMap (fun obs => obs)
  let count : ℚ := iter.length
  let total_usage : ℚ := (iter.map (fun cpu => cpu.usage)).sum
  let total_freq : ℚ := (iter.map (fun cpu => (cpu.frequency : ℚ))).sum
  { count := previous_obs.length
  , cpus := fdiv count (previous_obs.length : ℚ)
  , average_usage := fdiv total_usage count
  , average_freq_mhz := fdiv total_freq count
  , message := "finished cpu stats" }

/-- The window update in the receive loop of `SysStats::spawn`,
`src/stats.rs` lines 76-79: if the deque holds 10 entries the front
(oldest) is popped, then the new readings are pushed at the back. -/
def windowStep (previous_obs : List (List CpuStats)) (cpus : List CpuStats) :
    List (List CpuStats) :=
  (if previous_obs.length = 10 then previous_obs.drop 1 else previous_obs) ++ [cpus]

/-- The window contents after the receive loop of `SysStats::spawn` has
processed each batch of the given list in order, starting from the empty
window `SysStats::new` builds (`src/stats.rs` line 32). -/
def windowAfter (batches : List (List CpuStats)) : List (List CpuStats) :=
  batches.foldl windowStep []

/-- `Observation` from `src/obs.rs` lines 63-68: the readings together
with the `tracing::Span` bound to them.  The span handle is modelled by an
opaque numeric identity. -/
structure Observation where
  cpus : List CpuStats
  span : ℕ
  deriving DecidableEq

/-- The receive loop of `SysStats::spawn`, `src/stats.rs` lines 73-91,
run over a finite inbound message list.  `sendOk i` tells whether the
i-th downstream `outbound.send` succeeds (`false` models the downstream
receiver having been dropped).  Each iteration updates the window with a
clone of the observation's readings and runs `run_stats`; when an
outbound sender is configured and a send fails, the source executes
`break`, ending the whole loop.  Returns the final window, the emitted
stats events, and the observations actually forwarded downstream. -/
def statsLoop (sendOk : ℕ → Bool) (hasOutbound : Bool) :
    List (List CpuStats) → ℕ → List Observation →
      List (List CpuStats) × List StatsEvent × List Observation
  | w, _, [] => (w, [], [])
  | w, i, obs :: rest =>
    let w2 := windowStep w obs.cpus
    let ev := run_stats w2
    if hasOutbound then
      if sendOk i then
        let r := statsLoop sendOk hasOutbound w2 (i + 1) rest
        (r.1, ev :: r.2.1, obs :: r.2.2)
      else
        (w2, [ev], [])
    else
      let r := statsLoop sendOk hasOutbound w2 i rest
      (r.1, ev :: r.2.1, r.2.2)

/-- Aggregator state for the trace-context lifetime invariant: the set of
still-open spans together with the sliding window
(`SysStats.previous_obs`, `src/stats.rs` line 20, whose entry type
`Vec<CpuStats>` contains no span). -/
structure AggState where
  openSpans : Finset ℕ
  window : List (List CpuStats)

/-- One iteration of the receive loop of `SysStats::spawn`
(`src/stats.rs` lines 74-82) for the no-downstream path, combined with
the end-of-iteration disposal of the received `Observation`: the window
receives `(*obs).clone()` (the readings only, `src/stats.rs` line 79),
and the observation's drop (`src/obs.rs` lines 109-116) closes its span,
removing it from the open set. -/
def processCarrier (st : AggState) (obs : Observation) : AggState :=
  { window := windowStep st.window obs.cpus
  , openSpans := st.openSpans.erase obs.span }

/-- Metric key from `src/metrics.rs` line 8. -/
def OBSERVATIONS_MADE : String := "my_cute_app.observations_made"

/-- Metric key from `src/metrics.rs` line 11. -/
def OBSERVATIONS_LIVE : String := "my_cute_app.observations_live"

/-- Metric key from `src/metrics.rs` line 14. -/
def CPU_USAGE_HISTOGRAM : String := "my_cute_app.cpu_usage"

/-- Metric key from `src/metrics.rs` line 17. -/
def CPU_FREQUENCY_HISTOGRAM : String := "my_cute_app.cpu_frequency_mhz"

/-- One call into the metrics collaborator, in the order the code issues
them.  Histogram records carry their label key/value pair. -/
inductive MetricOp where
  | counterInc (name : String) (v : ℕ)
  | gaugeInc (name : String) (v : ℚ)
  | gaugeDec (name : String) (v : ℚ)
  | histRecord (name : String) (labelKey labelVal : String) (v : ℚ)
  deriving DecidableEq

/-- `record_observation` from `src/metrics.rs` lines 31-40, reified as
the list of metric operations it issues: a counter increment and a gauge
increment, then, looping over the readings in order, a usage-histogram
record and a frequency-histogram record per reading, labeled by the
reading's name. -/
def record_observation (obs : List CpuStats) : List MetricOp :=
  obs.foldl
    (fun acc cpu =>
      acc ++
        [MetricOp.histRecord CPU_USAGE_HISTOGRAM "name" cpu.name cpu.usage,
         MetricOp.histRecord CPU_FREQUENCY_HISTOGRAM "name" cpu.name (cpu.frequency : ℚ)])
    [MetricOp.counterInc OBSERVATIONS_MADE 1, MetricOp.gaugeInc OBSERVATIONS_LIVE 1]

/-- `Observation::new` from `src/obs.rs` lines 90-93: calls
`record_observation` on the readings, then assembles the value.  Returns
the constructed observation together with the metric operations the
construction issued.  Construction is a total function: it has no failure
path. -/
def Observation.new (cpus : List CpuStats) (span : ℕ) :
    Observation × List MetricOp :=
  (Observation.mk cpus span, record_observation cpus)

/-- The metric operations issued by `Drop for Observation`
(`src/obs.rs` line 114): one gauge decrement. -/
def observationDropMetricOps : List MetricOp :=
  [MetricOp.gaugeDec OBSERVATIONS_LIVE 1]

/-- A lifecycle event of some `Observation`: a construction (via
`Observation::new`) or a disposal (via `Drop`). -/
inductive LifecycleEvent where
  | construct (cpus : List CpuStats) (span : ℕ)
  | dispose
  deriving DecidableEq

/-- The metric operations each lifecycle event issues, per `src/obs.rs`
lines 90-93 and 109-116. -/
def eventMetricOps : LifecycleEvent → List MetricOp
  | LifecycleEvent.construct cpus span => (Observation.new cpus span).2
  | LifecycleEvent.dispose => observationDropMetricOps

/-- Contribution of one metric operation to the gauge with the given
name. -/
def gaugeDelta (name : String) : MetricOp → ℚ
  | MetricOp.gaugeInc n v => if n = name then v else 0
  | MetricOp.gaugeDec n v => if n = name then -v else 0
  | _ => 0

/-- Value of the named gauge after a list of metric operations, starting
from 0. -/
def gaugeValue (name : String) (ops : List MetricOp) : ℚ :=
  (ops.map (gaugeDelta name)).sum

/-- Number of constructions in a lifecycle event list. -/
def constructCount (evs : List LifecycleEvent) : ℕ :=
  (evs.filter fun e =>
    match e with
    | LifecycleEvent.construct _ _ => true
    | _ => false).length

/-- Number of disposals in a lifecycle event list. -/
def disposeCount (evs : List LifecycleEvent) : ℕ :=
  (evs.filter fun e =>
    match e with
    | LifecycleEvent.dispose => true
    | _ => false).length

/-- One side-effecting action during `Drop for Observation`
(`src/obs.rs` lines 109-116), in execution order.  `traceEvent` carries
whether the trace-emission backend accepted the event (the `tracing`
macros swallow backend failures, so the surrounding actions are the same
either way). -/
inductive DropAction where
  | enterSpan (span : ℕ)
  | traceEvent (msg : String) (backendOk : Bool)
  | exitSpan (span : ℕ)
  | gaugeDec (name : String) (v : ℚ)
  | closeSpan (span : ℕ)
  deriving DecidableEq

/-- The action sequence of `Drop for Observation` (`src/obs.rs` lines
109-116): `in_scope` enters the span, the `trace!` event is recorded,
the span is exited, the gauge is decremented; the `span` field itself is
dropped after the `drop` body, which is what closes the span.  The
function is total in `backendOk`: every action happens whether or not
the trace backend accepts the event, and no action can fail. -/
def Observation.dropActions (o : Observation) (backendOk : Bool) :
    List DropAction :=
  [DropAction.enterSpan o.span,
   DropAction.traceEvent "Dropping observation" backendOk,
   DropAction.exitSpan o.span,
   DropAction.gaugeDec OBSERVATIONS_LIVE 1,
   DropAction.closeSpan o.span]

/-- Recognizes the span-entering action. -/
def isEnterSpan : DropAction → Bool
  | DropAction.enterSpan _ => true
  | _ => false

/-- Recognizes the disposal trace event. -/
def isDisposeEvent : DropAction → Bool
  | DropAction.traceEvent _ _ => true
  | _ => false

/-- Recognizes the span-closing action. -/
def isCloseSpan : DropAction → Bool
  | DropAction.closeSpan _ => true
  | _ => false

/-- Recognizes the decrement of the live-observations gauge. -/
def isLiveGaugeDec : DropAction → Bool
  | DropAction.gaugeDec n _ => n == OBSERVATIONS_LIVE
  | _ => false

/-- u64 wrap-around bound used by `counter.wrapping_add(1)` in
`src/monitor.rs` line 67. -/
def U64LIMIT : ℕ := 2 ^ 64

/-- How the monitor task loop ends. `receiverGone` is the `break` taken
after a failed send (`src/monitor.rs` lines 101-104); `outOfTicks` means
the modelled run stopped only because its finite tick budget ran out
(the real loop would keep running).  There is no error alternative: the
task body returns unit on every path. -/
inductive MonitorExit where
  | receiverGone
  | outOfTicks
  deriving DecidableEq

/-- The loop of `SysMonitor::spawn`, `src/monitor.rs` lines 76-106, run
for a finite number of ticks.  `sample i` is the readings
`take_observation` collects at tick `i`; `sendOk i` tells whether the
i-th `outbound.send` succeeds (`false` models the receiver having been
dropped).  Each tick opens a span carrying the current counter value,
samples, wraps the counter (`wrapping_add`), constructs the observation,
and sends; a failed send breaks out of the loop.  Returns the
observations actually delivered and how the run ended. -/
def monitorLoop (sample : ℕ → List CpuStats) (sendOk : ℕ → Bool) :
    ℕ → ℕ → ℕ → List Observation × MonitorExit
  | _, _, 0 => ([], MonitorExit.outOfTicks)
  | counter, i, fuel + 1 =>
    let stats := sample i
    let counter2 := (counter + 1) % U64LIMIT
    let obs : Observation := Observation.mk stats counter
    if sendOk i then
      let r := monitorLoop sample sendOk counter2 (i + 1) fuel
      (obs :: r.1, r.2)
    else
      ([], MonitorExit.receiverGone)

/-- Denotation of the `tokio::select!` in `run_observations`
(`src/lib.rs` lines 65-74) over the two task handles: the select
resolves at the first moment either branch resolves.  Resolution times
are in `WithTop ℕ`, with `⊤` standing for a task that never resolves
(still running). -/
def selectResolveTime (t1 t2 : WithTop ℕ) : WithTop ℕ := min t1 t2

/-- Resolution time of the handle returned by `run_observations`
(`src/lib.rs` lines 52-75), given the resolution times of the monitor
task and the stats task it spawns. -/
def run_observations (tMonitor tStats : WithTop ℕ) : WithTop ℕ :=
  selectResolveTime tMonitor tStats

/-- A concrete observation used in counterexample runs. -/
def cexObs1 : Observation := Observation.mk [CpuStats.mk "cpu0" 10 2000] 1

/-- A second concrete observation used in counterexample runs. -/
def cexObs2 : Observation := Observation.mk [CpuStats.mk "cpu0" 30 2400] 2

/-- A concrete one-batch window used by witnesses. -/
def statsWitnessWindow : List (List CpuStats) :=
  [[CpuStats.mk "cpu0" 10 2000]]

/-- Recognizes a counter increment. -/
def isCounterOp : MetricOp → Bool
  | MetricOp.counterInc _ _ => true
  | _ => false

/-- Recognizes a gauge increment. -/
def isGaugeIncOp : MetricOp → Bool
  | MetricOp.gaugeInc _ _ => true
  | _ => false

/-- Recognizes a histogram record. -/
def isHistOp : MetricOp → Bool
  | MetricOp.histRecord _ _ _ _ => true
  | _ => false

theorem fdiv_of_ne_zero (x d : ℚ) (h : d ≠ 0) : fdiv x d = F64.num (x / d) := by
  simp [fdiv, h]

theorem gaugeValue_append (name : String) (l1 l2 : List MetricOp) :
    gaugeValue name (l1 ++ l2) = gaugeValue name l1 + gaugeValue name l2 := by
  simp [gaugeValue]

theorem foldl_append_eq_flatMap {α β : Type} (f : α → List β) :
    ∀ (l : List α) (init : List β),
      l.foldl (fun acc x => acc ++ f x) init = init ++ l.flatMap f := by
  intro l
  induction l with
  | nil => simp
  | cons a t ih => intro init; simp [ih]

theorem record_observation_eq (cpus : List CpuStats) :
    record_observation cpus =
      [MetricOp.counterInc OBSERVATIONS_MADE 1,
       MetricOp.gaugeInc OBSERVATIONS_LIVE 1]
      ++ cpus.flatMap (fun cpu =>
          [MetricOp.histRecord CPU_USAGE_HISTOGRAM "name" cpu.name cpu.usage,
           MetricOp.histRecord CPU_FREQUENCY_HISTOGRAM "name" cpu.name
             (cpu.frequency : ℚ)]) := by
  exact foldl_append_eq_flatMap
    (fun cpu =>
      [MetricOp.histRecord CPU_USAGE_HISTOGRAM "name" cpu.name cpu.usage,
       MetricOp.histRecord CPU_FREQUENCY_HISTOGRAM "name" cpu.name
         (cpu.frequency : ℚ)]) cpus _

theorem gaugeValue_hist_ops (cpus : List CpuStats) :
    gaugeValue OBSERVATIONS_LIVE
      (cpus.flatMap (fun cpu =>
        [MetricOp.histRecord CPU_USAGE_HISTOGRAM "name" cpu.name cpu.usage,
         MetricOp.histRecord CPU_FREQUENCY_HISTOGRAM "name" cpu.name
           (cpu.frequency : ℚ)])) = 0 := by
  induction cpus with
  | nil => simp [gaugeValue]
  | cons a t ih => simp [gaugeValue, gaugeDelta] at ih ⊢; exact ih

theorem gaugeValue_record_observation (cpus : List CpuStats) :
    gaugeValue OBSERVATIONS_LIVE (record_observation cpus) = 1 := by
  rw [record_observation_eq, gaugeValue_append, gaugeValue_hist_ops]
  simp [gaugeValue, gaugeDelta]

theorem countP_hist_ops_counter (cpus : List CpuStats) :
    (cpus.flatMap (fun cpu =>
      [MetricOp.histRecord CPU_USAGE_HISTOGRAM "name" cpu.name cpu.usage,
       MetricOp.histRecord CPU_FREQUENCY_HISTOGRAM "name" cpu.name
         (cpu.frequency : ℚ)])).countP isCounterOp = 0 := by
  induction cpus with
  | nil => simp
  | cons a t ih => simp [List.countP_cons, isCounterOp, ih]

theorem countP_hist_ops_gauge (cpus : List CpuStats) :
    (cpus.flatMap (fun cpu =>
      [MetricOp.histRecord CPU_USAGE_HISTOGRAM "name" cpu.name cpu.usage,
       MetricOp.histRecord CPU_FREQUENCY_HISTOGRAM "name" cpu.name
         (cpu.frequency : ℚ)])).countP isGaugeIncOp = 0 := by
  induction cpus with
  | nil => simp
  | cons a t ih => simp [List.countP_cons, isGaugeIncOp, ih]

theorem countP_hist_ops_hist (cpus : List CpuStats) :
    (cpus.flatMap (fun cpu =>
      [MetricOp.histRecord CPU_USAGE_HISTOGRAM "name" cpu.name cpu.usage,
       MetricOp.histRecord CPU_FREQUENCY_HISTOGRAM "name" cpu.name
         (cpu.frequency : ℚ)])).countP isHistOp = 2 * cpus.length := by
  induction cpus with
  | nil => simp
  | cons a t ih =>
    simp [List.countP_cons, isHistOp, ih]
    omega

/-- Claim C1: each window entry appended by the aggregator is a plain
copy of the readings that does not retain the carrier's span: the window
after an iteration is the same whatever the carrier's span was, the
carrier's span is closed (not open) once the iteration's disposal has
run, and the copied readings are nevertheless still present in the
window — so no window entry keeps the carrier's context open after the
carrier is disposed. -/
theorem window_entries_span_free :
    ∀ (st : AggState) (cpus : List CpuStats) (s1 s2 : ℕ),
      (processCarrier st (Observation.mk cpus s1)).window
          = (processCarrier st (Observation.mk cpus s2)).window
      ∧ s1 ∉ (processCarrier st (Observation.mk cpus s1)).openSpans
      ∧ cpus ∈ (processCarrier st (Observation.mk cpus s1)).window := by
  intro st cpus s1 s2
  refine ⟨rfl, Finset.not_mem_erase s1 st.openSpans, ?_⟩
  simp [processCarrier, windowStep]

/-- Claim C2 counterexample: on the reachable window state holding one
batch with zero readings (one carrier whose sampler returned no CPUs),
the aggregate step divides zero by zero and emits an event whose
`average_usage` and `average_freq_mhz` fields are NaN — contradicting
the claim that the aggregator either emits nothing, or emits a "no data"
marker, and never produces NaN. -/
theorem run_stats_nan_counterexample :
    windowAfter [([] : List CpuStats)] = [[]]
    ∧ (run_stats [[]]).average_usage = F64.nan
    ∧ (run_stats [[]]).average_freq_mhz = F64.nan := by
  refine ⟨rfl, ?_, ?_⟩ <;> simp [run_stats, fdiv]

/-- Claim C2 (amended): when the flattened sequence of readings across
the window is empty, `run_stats` performs the division 0/0 unguarded and
still emits an aggregate event; its `average_usage` and
`average_freq_mhz` fields are NaN, while the batch-count field and the
message are populated as usual.  There is no empty-window guard and no
"no data" marker in the source. -/
theorem run_stats_empty_flatten_emits_nan :
    ∀ w : List (List CpuStats),
      w.flatMap (fun obs => obs) = [] →
      (run_stats w).average_usage = F64.nan
      ∧ (run_stats w).average_freq_mhz = F64.nan
      ∧ (run_stats w).count = w.length
      ∧ (run_stats w).message = "finished cpu stats" := by
  intro w h
  refine ⟨?_, ?_, rfl, rfl⟩ <;> simp [run_stats, fdiv, h]

/-- Claim C2 witness: the amended theorem applied to the concrete window
holding one empty batch. -/
theorem run_stats_empty_flatten_emits_nan_witness :
    ([[]] : List (List CpuStats)).flatMap (fun obs => obs) = []
    ∧ ((run_stats [[]]).average_usage = F64.nan
       ∧ (run_stats [[]]).average_freq_mhz = F64.nan
       ∧ (run_stats [[]]).count = 1
       ∧ (run_stats [[]]).message = "finished cpu stats") :=
  ⟨rfl, run_stats_empty_flatten_emits_nan [[]] rfl⟩

/-- Claim C3: evaluation of the receive loop at the failing input.  With
a downstream sender configured whose receiver is gone (every send
fails), feeding two observations produces exactly one stats event, a
window holding only the first batch, and no forwards: the `break` in
`src/stats.rs` line 88 ends the whole receive loop, so the second
carrier is never received or aggregated — the code does not merely stop
forwarding while continuing to aggregate. -/
theorem forward_failure_terminates_receive_loop :
    (statsLoop (fun _ => false) true [] 0 [cexObs1, cexObs2]).2.1.length = 1
    ∧ (statsLoop (fun _ => false) true [] 0 [cexObs1, cexObs2]).1
        = [cexObs1.cpus]
    ∧ (statsLoop (fun _ => false) true [] 0 [cexObs1, cexObs2]).2.2 = [] := by
  refine ⟨rfl, rfl, rfl⟩

/-- Claim C4: for every arrival sequence, the window after processing it
is exactly the most recent `min (length, 10)` batches in arrival order,
oldest first (the list-drop closed form), and in particular holds
`min (k, 10)` entries after the k-th carrier; eviction of the oldest
entry happens exactly when the window is at capacity 10. -/
theorem window_fifo_min_capacity :
    ∀ batches : List (List CpuStats),
      windowAfter batches = batches.drop (batches.length - 10)
      ∧ (windowAfter batches).length = min batches.length 10 := by
  have hcf : ∀ batches : List (List CpuStats),
      windowAfter batches = batches.drop (batches.length - 10) := by
    intro batches
    induction batches using List.reverseRecOn with
    | nil => simp [windowAfter]
    | append_singleton bs b ih =>
      have hstep : windowAfter (bs ++ [b]) = windowStep (windowAfter bs) b := by
        simp [windowAfter, List.foldl_append]
      rw [hstep, ih, windowStep]
      by_cases hlen : bs.length < 10
      · have hne : ¬ (bs.drop (bs.length - 10)).length = 10 := by
          rw [List.length_drop]; omega
        rw [if_neg hne]
        have hz : bs.length - 10 = 0 := by omega
        rw [hz, List.drop_zero]
        have hz2 : (bs ++ [b]).length - 10 = 0 := by
          rw [List.length_append]
          simp only [List.length_cons, List.length_nil]
          omega
        rw [hz2, List.drop_zero]
      · have hpos : (bs.drop (bs.length - 10)).length = 10 := by
          rw [List.length_drop]; omega
        rw [if_pos hpos, List.drop_drop]
        have happ : (bs ++ [b]).length = bs.length + 1 := by
          rw [List.length_append]
          simp only [List.length_cons, List.length_nil]
        rw [happ]
        have hle : bs.length + 1 - 10 ≤ bs.length := by omega
        rw [List.drop_append_of_le_length hle]
        have harith : bs.length - 10 + 1 = bs.length + 1 - 10 := by omega
        rw [harith]
  intro batches
  refine ⟨hcf batches, ?_⟩
  rw [hcf batches, List.length_drop]
  omega

/-- Claim C5: on any window whose flattened readings are non-empty, the
emitted aggregate event carries exactly the batch count (window length),
the mean readings-per-batch (total readings over batch count), the
average usage (usage sum over total readings), and the average frequency
in MHz (frequency sum over total readings), all finite. -/
theorem run_stats_fields_nonempty :
    ∀ w : List (List CpuStats),
      0 < (w.flatMap (fun obs => obs)).length →
      run_stats w =
        { count := w.length
        , cpus := F64.num (((w.flatMap (fun obs => obs)).length : ℚ)
            / (w.length : ℚ))
        , average_usage := F64.num
            (((w.flatMap (fun obs => obs)).map (fun cpu => cpu.usage)).sum
              / ((w.flatMap (fun obs => obs)).length : ℚ))
        , average_freq_mhz := F64.num
            (((w.flatMap (fun obs => obs)).map
                (fun cpu => (cpu.frequency : ℚ))).sum
              / ((w.flatMap (fun obs => obs)).length : ℚ))
        , message := "finished cpu stats" } := by
  intro w h
  have hflat : ((w.flatMap (fun obs => obs)).length : ℚ) ≠ 0 := by
    exact_mod_cast Nat.pos_iff_ne_zero.mp h
  have hw : w ≠ [] := by
    intro e
    rw [e] at h
    simp at h
  have hwlen : (w.length : ℚ) ≠ 0 := by
    exact_mod_cast Nat.pos_iff_ne_zero.mp (List.length_pos.mpr hw)
  show StatsEvent.mk _ (fdiv _ _) (fdiv _ _) (fdiv _ _) _ = _
  rw [fdiv_of_ne_zero _ _ hwlen, fdiv_of_ne_zero _ _ hflat,
    fdiv_of_ne_zero _ _ hflat]

/-- Claim C5 witness: the theorem applied to the concrete one-batch
window with one reading of usage 10 and frequency 2000. -/
theorem run_stats_fields_nonempty_witness :
    0 < ((statsWitnessWindow.flatMap (fun obs => obs)).length)
    ∧ run_stats statsWitnessWindow =
        { count := statsWitnessWindow.length
        , cpus := F64.num
            (((statsWitnessWindow.flatMap (fun obs => obs)).length : ℚ)
              / (statsWitnessWindow.length : ℚ))
        , average_usage := F64.num
            (((statsWitnessWindow.flatMap (fun obs => obs)).map
                (fun cpu => cpu.usage)).sum
              / ((statsWitnessWindow.flatMap (fun obs => obs)).length : ℚ))
        , average_freq_mhz := F64.num
            (((statsWitnessWindow.flatMap (fun obs => obs)).map
                (fun cpu => (cpu.frequency : ℚ))).sum
              / ((statsWitnessWindow.flatMap (fun obs => obs)).length : ℚ))
        , message := "finished cpu stats" } :=
  ⟨by decide, run_stats_fields_nonempty statsWitnessWindow (by decide)⟩

/-- Claim C6: over any interleaving of constructions and disposals, the
live-observations gauge equals the number of constructions minus the
number of disposals: each `Observation::new` contributes exactly one
gauge increment and each `Drop` exactly one gauge decrement. -/
theorem gauge_equals_constructed_minus_disposed :
    ∀ evs : List LifecycleEvent,
      gaugeValue OBSERVATIONS_LIVE (evs.flatMap eventMetricOps)
        = (constructCount evs : ℚ) - (disposeCount evs : ℚ) := by
  intro evs
  induction evs with
  | nil => simp [gaugeValue, constructCount, disposeCount]
  | cons e t ih =>
    have hsplit : (e :: t).flatMap eventMetricOps
        = eventMetricOps e ++ t.flatMap eventMetricOps := by
      simp
    rw [hsplit, gaugeValue_append, ih]
    cases e with
    | construct cpus span =>
      have h1 : gaugeValue OBSERVATIONS_LIVE
          (eventMetricOps (LifecycleEvent.construct cpus span)) = 1 := by
        simpa [eventMetricOps, Observation.new] using
          gaugeValue_record_observation cpus
      rw [h1]
      simp [constructCount, disposeCount, List.filter]
      ring
    | dispose =>
      have h1 : gaugeValue OBSERVATIONS_LIVE
          (eventMetricOps LifecycleEvent.dispose) = -1 := by
        simp [eventMetricOps, observationDropMetricOps, gaugeValue, gaugeDelta]
      rw [h1]
      simp [constructCount, disposeCount, List.filter]
      ring

/-- Claim C7: during disposal of any observation, whatever the backend
outcome, the "Dropping observation" trace event is recorded after the
span is entered and strictly before the span closes, and the
live-observations gauge decrement happens strictly after the event; the
decrement is present in the action list for both backend outcomes, and
disposal always performs the complete five-action sequence (it has no
failure path). -/
theorem drop_event_order :
    ∀ (o : Observation) (b : Bool),
      (o.dropActions b).findIdx isEnterSpan
          < (o.dropActions b).findIdx isDisposeEvent
      ∧ (o.dropActions b).findIdx isDisposeEvent
          < (o.dropActions b).findIdx isCloseSpan
      ∧ (o.dropActions b).findIdx isDisposeEvent
          < (o.dropActions b).findIdx isLiveGaugeDec
      ∧ DropAction.gaugeDec OBSERVATIONS_LIVE 1 ∈ o.dropActions b
      ∧ (o.dropActions b).length = 5 := by
  intro o b
  refine ⟨?_, ?_, ?_, ?_, rfl⟩ <;>
    simp [Observation.dropActions, List.findIdx, List.findIdx.go,
      isEnterSpan, isDisposeEvent, isCloseSpan, isLiveGaugeDec,
      OBSERVATIONS_LIVE]

/-- Claim C8: whenever the monitor loop's send fails (the receiving side
is gone), the loop breaks immediately and the task ends with the
`receiverGone` outcome — a clean exit value, not an error (the result
type has no error alternative), delivering nothing further. -/
theorem monitor_send_failure_clean_exit :
    ∀ (sample : ℕ → List CpuStats) (sendOk : ℕ → Bool)
      (counter i fuel : ℕ),
      sendOk i = false →
      monitorLoop sample sendOk counter i (fuel + 1)
        = ([], MonitorExit.receiverGone) := by
  intro sample sendOk counter i fuel h
  simp [monitorLoop, h]

/-- Claim C8 witness: the theorem applied to a concrete run whose very
first send fails. -/
theorem monitor_send_failure_clean_exit_witness :
    (fun _ : ℕ => false) 0 = false
    ∧ monitorLoop (fun _ => []) (fun _ : ℕ => false) 0 0 1
        = ([], MonitorExit.receiverGone) :=
  ⟨rfl, monitor_send_failure_clean_exit (fun _ => []) (fun _ => false) 0 0 0 rfl⟩

/-- Claim C9: the handle returned by `run_observations` resolves no
later than either constituent task, and resolves exactly when the sooner
of the two does — in particular, if one task never resolves (time ⊤),
the handle still resolves at the other task's time. -/
theorem run_observations_first_to_finish :
    ∀ tMonitor tStats : WithTop ℕ,
      run_observations tMonitor tStats ≤ tMonitor
      ∧ run_observations tMonitor tStats ≤ tStats
      ∧ run_observations tMonitor ⊤ = tMonitor
      ∧ run_observations ⊤ tStats = tStats := by
  intro t1 t2
  refine ⟨min_le_left _ _, min_le_right _ _, ?_, ?_⟩ <;>
    simp [run_observations, selectResolveTime]

/-- Claim C10: construction of an observation issues exactly, in order,
one counter increment ("observations made"), one gauge increment
("observations live"), and then, for each reading in order, one
usage-histogram sample and one frequency-histogram sample labeled with
that reading's name — one counter increment, one gauge increment, and
two histogram samples per reading in total — and construction always
succeeds, returning the assembled observation. -/
theorem record_observation_ops_shape :
    ∀ (cpus : List CpuStats) (span : ℕ),
      (Observation.new cpus span).1 = Observation.mk cpus span
      ∧ (Observation.new cpus span).2
          = [MetricOp.counterInc OBSERVATIONS_MADE 1,
             MetricOp.gaugeInc OBSERVATIONS_LIVE 1]
            ++ cpus.flatMap (fun cpu =>
                [MetricOp.histRecord CPU_USAGE_HISTOGRAM "name" cpu.name
                   cpu.usage,
                 MetricOp.histRecord CPU_FREQUENCY_HISTOGRAM "name" cpu.name
                   (cpu.frequency : ℚ)])
      ∧ (Observation.new cpus span).2.countP isCounterOp = 1
      ∧ (Observation.new cpus span).2.countP isGaugeIncOp = 1
      ∧ (Observation.new cpus span).2.countP isHistOp = 2 * cpus.length := by
  intro cpus span
  have hops : (Observation.new cpus span).2 = record_observation cpus := rfl
  refine ⟨rfl, record_observation_eq cpus, ?_, ?_, ?_⟩
  · rw [hops, record_observation_eq, List.countP_append,
      countP_hist_ops_counter]
    simp [List.countP_cons, isCounterOp]
  · rw [hops, record_observation_eq, List.countP_append,
      countP_hist_ops_gauge]
    simp [List.countP_cons, isGaugeIncOp]
  · rw [hops, record_observation_eq, List.countP_append,
      countP_hist_ops_hist]
    simp [List.countP_cons, isCounterOp, isGaugeIncOp, isHistOp]
